import Mathlib

/-!
Verification of the price polling engine of `src-tauri/src/runner.rs`
(`run_loop`), shallowly embedded as a step function on an explicit loop
state, driven by a trace of per-cycle environment events.

Modelling decisions, justified against the source:

* `run_loop(price_sender, token_receiver)` is an infinite `loop`.  Each
  iteration (a "cycle") interacts with the environment at four points:
  the `token_receiver.has_changed()?` / `borrow()` pair (runner.rs:23-26),
  one adapter call `fetch_price` / `fetch_pair_price` (runner.rs:43, 77),
  one `price_sender.send(price_map)?` (runner.rs:53, 65, 87, 99), and a
  `sleep` (runner.rs:69, 103, 110).  We package the environment's
  responses for one cycle as a `CycleInput` and the cycle's observable
  actions as a list of `Effect`s, and give the loop body as a function
  `step : LoopState → CycleInput P → CycleResult P`.

* Prices are `f64` values that `run_loop` merely passes through (no
  arithmetic, no comparison), so the embedding is polymorphic in the
  price type `P`.

* `retry_count` is an `i32` in the source, starting at 0, reset to 0 and
  incremented by 1 only; it is used as `2f32.powi(retry_count - 1)` only
  right after an increment, so it is ≥ 1 there and never negative
  anywhere.  We model it as `Nat` (the backoff computation aborts the
  process long before `i32` overflow could occur, see `backoffSecs`).

* The backoff `Duration::from_secs(30).mul_f32(2f32.powi(retry_count - 1))`
  (runner.rs:68, 102) is exact integer arithmetic as long as it does not
  overflow: `2f32.powi(k)` is exact for `0 ≤ k ≤ 127`, and
  `30 * 2^k = 1.875 * 2^(k+4)` needs 4 significand bits, so the f32
  product is exact while its exponent stays below 128.  `mul_f32` panics
  (Duration overflow) as soon as the product in seconds reaches `2^64`,
  which happens first — at `retry_count = 61` (30·2⁶⁰ ≥ 2⁶⁴ > 30·2⁵⁹).
  `backoffSecs` therefore returns the exact number of seconds, or `none`
  for the panic.
-/

/-- `token_registry::Token`, restricted to the fields `run_loop` reads
(`symbol` at runner.rs:35, `address` at runner.rs:42, 74, 77). -/
structure Token where
  symbol : String
  address : String
deriving DecidableEq

/-- `feeder::PriceInfo` as constructed by `run_loop` (runner.rs:48-51,
60-63, 82-85, 94-97): an optional price plus the retry counter. -/
structure PriceInfo (P : Type) where
  price : Option P
  retry_count : Nat
deriving DecidableEq

/-- The loop-local mutable state of `run_loop`: `tokens` and
`retry_count` (runner.rs:18-19). -/
structure LoopState where
  tokens : List Token
  retry_count : Nat
deriving DecidableEq

/-- Outcome of the `token_receiver.has_changed()?` / `borrow()` pair at
the top of a cycle (runner.rs:23-26): the watch channel is closed
(`has_changed` returns `Err`, propagated by `?`), unchanged, or changed
with a new token list. -/
inductive SelEvent where
  | closed
  | unchanged
  | changed (newTokens : List Token)
deriving DecidableEq

/-- The environment's responses for one cycle: the selection-channel
event, the adapter result (`some price` for `Ok`, `none` for `Err` —
the error message is only printed, runner.rs:57, 91), and whether
`price_sender.send` returns `Ok` (`false` models the watch channel being
closed, in which case `?` propagates the error). -/
structure CycleInput (P : Type) where
  sel : SelEvent
  fetch : Option P
  sendOk : Bool
deriving DecidableEq

/-- Which adapter `run_loop` invokes, with its address argument(s) in
order: `fetch_price(&address)` (runner.rs:43) or
`fetch_pair_price(&tokens[0].address, &tokens[1].address)`
(runner.rs:77). -/
inductive FetchCall where
  | single (addr : String)
  | pair (base quote : String)
deriving DecidableEq

/-- One observable action of a cycle.  `publish m` is a successful
`price_sender.send(price_map)` where `price_map` is the freshly built
map (`HashMap::new()` plus a single `insert`, modelled as a singleton
association list).  `sleep n` is a `sleep` of `n` seconds. -/
inductive Effect (P : Type) where
  | fetchCall (c : FetchCall)
  | publish (priceMap : List (String × PriceInfo P))
  | sleep (secs : Nat)
deriving DecidableEq

/-- The two `Result::Err` exits of `run_loop`: `token_receiver.has_changed()?`
(runner.rs:23) and `price_sender.send(...)?` (runner.rs:53, 65, 87, 99). -/
inductive LoopError where
  | selChannelClosed
  | pubChannelClosed
deriving DecidableEq

/-- Result of one cycle: continue the loop with a new state, return
`Err` from `run_loop`, or abort the process (panic).  In every case the
effects that occurred during the cycle are recorded in order. -/
inductive CycleResult (P : Type) where
  | next (s : LoopState) (effects : List (Effect P))
  | exited (e : LoopError) (effects : List (Effect P))
  | panicked (effects : List (Effect P))
deriving DecidableEq

/-- `POLL_INTERVAL` (runner.rs:12), in seconds. -/
def POLL_INTERVAL : Nat := 5

/-- `Duration::from_secs_f32` panics when the value in seconds reaches
`2^64` (it no longer fits the `u64` seconds field of `Duration`). -/
def durationOverflowSecs : Nat := 2 ^ 64

/-- The backoff sleep of runner.rs:68-69 (and identically 102-103):
`Duration::from_secs(30).mul_f32(2f32.powi(retry_count - 1))`, then
`.min(Duration::from_secs(300))`.  The f32 arithmetic is exact here (see
the file header), so the uncapped product is exactly
`30 * 2^(retry_count - 1)` seconds; `mul_f32` panics (`none`) when that
product reaches `2^64` seconds, and otherwise the slept duration is the
product capped at 300 seconds. -/
def backoffSecs (retry_count : Nat) : Option Nat :=
  let raw := 30 * 2 ^ (retry_count - 1)
  if raw < durationOverflowSecs then some (min raw 300) else none

/-- The `has_changed()?` / adoption prologue of a cycle (runner.rs:23-26):
`none` means `has_changed` returned `Err` (propagated); on a change the
new tokens are adopted and `retry_count` is reset to 0. -/
def observeSelection (s : LoopState) : SelEvent → Option LoopState
  | SelEvent.closed => none
  | SelEvent.unchanged => some s
  | SelEvent.changed ts => some { tokens := ts, retry_count := 0 }

/-- The branch selection of runner.rs:29 and 40-43 / 73-77 combined:
`is_pair = tokens.len() == 2`.  A pair (`[b, q]`) uses the pair adapter
and the key `format!("{}_{}", tokens[0].address, tokens[1].address)`
(runner.rs:74, 77); any other length takes the `!is_pair` branch, which
reads `tokens[0]` — a panic (index out of bounds) on an empty vector
(runner.rs:42), and otherwise the single adapter keyed by
`tokens[0].address`. -/
def selectionTarget : List Token → Option (String × FetchCall)
  | [] => none
  | [b, q] => some (b.address ++ "_" ++ q.address, FetchCall.pair b.address q.address)
  | t :: _ => some (t.address, FetchCall.single t.address)

/-- The shared body of the two (textually identical up to key and
adapter) match arms of runner.rs:43-71 and 77-105.  `Ok(price)`: reset
`retry_count`, build the singleton map, `send?`, then fall through to
the `sleep(POLL_INTERVAL)` at runner.rs:110.  `Err(_)`: increment
`retry_count`, build the singleton map with `price: None`, `send?`,
compute the backoff (panicking on Duration overflow), sleep it, and
`continue` (skipping the poll-interval sleep). -/
def handleFetch {P : Type} (key : String) (call : FetchCall) (s : LoopState)
    (fetch : Option P) (sendOk : Bool) : CycleResult P :=
  match fetch with
  | some price =>
    if sendOk then
      CycleResult.next { s with retry_count := 0 }
        [Effect.fetchCall call,
         Effect.publish [(key, { price := some price, retry_count := 0 })],
         Effect.sleep POLL_INTERVAL]
    else
      CycleResult.exited LoopError.pubChannelClosed [Effect.fetchCall call]
  | none =>
    let rc := s.retry_count + 1
    if sendOk then
      match backoffSecs rc with
      | some b =>
        CycleResult.next { s with retry_count := rc }
          [Effect.fetchCall call,
           Effect.publish [(key, { price := none, retry_count := rc })],
           Effect.sleep b]
      | none =>
        CycleResult.panicked
          [Effect.fetchCall call,
           Effect.publish [(key, { price := none, retry_count := rc })]]
    else
      CycleResult.exited LoopError.pubChannelClosed [Effect.fetchCall call]

/-- One iteration of the `loop` of `run_loop` (runner.rs:21-111). -/
def step {P : Type} (s : LoopState) (input : CycleInput P) : CycleResult P :=
  match observeSelection s input.sel with
  | none => CycleResult.exited LoopError.selChannelClosed []
  | some s1 =>
    match selectionTarget s1.tokens with
    | none => CycleResult.panicked []
    | some (key, call) => handleFetch key call s1 input.fetch input.sendOk

/-- The initial loop state (runner.rs:18-19): the current value of the
token channel, and `retry_count = 0`. -/
def initState (initialTokens : List Token) : LoopState :=
  { tokens := initialTokens, retry_count := 0 }

/-- Observable outcome of finitely many cycles of `run_loop`. -/
inductive RunResult (P : Type) where
  | running (s : LoopState) (effects : List (Effect P))
  | exited (e : LoopError) (effects : List (Effect P))
  | panicked (effects : List (Effect P))
deriving DecidableEq

/-- Run `run_loop` for (at most) one cycle per provided `CycleInput`,
accumulating effects in order.  `running s effs` means the loop consumed
the whole trace and would continue from `s`. -/
def run_loop {P : Type} (s : LoopState) : List (CycleInput P) → RunResult P
  | [] => RunResult.running s []
  | i :: rest =>
    match step s i with
    | CycleResult.next s1 effs =>
      match run_loop s1 rest with
      | RunResult.running s2 effs2 => RunResult.running s2 (effs ++ effs2)
      | RunResult.exited e effs2 => RunResult.exited e (effs ++ effs2)
      | RunResult.panicked effs2 => RunResult.panicked (effs ++ effs2)
    | CycleResult.exited e effs => RunResult.exited e effs
    | CycleResult.panicked effs => RunResult.panicked effs

/-- The effects recorded by a cycle, regardless of how it ended. -/
def CycleResult.effects {P : Type} : CycleResult P → List (Effect P)
  | CycleResult.next _ effs => effs
  | CycleResult.exited _ effs => effs
  | CycleResult.panicked effs => effs

/-- The effects recorded by a finite run, regardless of how it ended. -/
def RunResult.effects {P : Type} : RunResult P → List (Effect P)
  | RunResult.running _ effs => effs
  | RunResult.exited _ effs => effs
  | RunResult.panicked effs => effs

/-- Whether a finite run ended in a panic. -/
def RunResult.isPanicked {P : Type} : RunResult P → Bool
  | RunResult.panicked _ => true
  | _ => false

/-- The price maps sent over the publication channel, in order. -/
def publishedMaps {P : Type} : List (Effect P) → List (List (String × PriceInfo P)) :=
  List.filterMap fun e =>
    match e with
    | Effect.publish m => some m
    | _ => none

/-- The slept durations (seconds), in order. -/
def sleepSecs {P : Type} : List (Effect P) → List Nat :=
  List.filterMap fun e =>
    match e with
    | Effect.sleep n => some n
    | _ => none

/-- The adapter invocations, in order. -/
def fetchCalls {P : Type} : List (Effect P) → List FetchCall :=
  List.filterMap fun e =>
    match e with
    | Effect.fetchCall c => some c
    | _ => none

/-- A cycle input for a steady (unchanged-selection) failing fetch with
a live publication channel. -/
def failCycle (P : Type) : CycleInput P :=
  { sel := SelEvent.unchanged, fetch := none, sendOk := true }

/-- A cycle input for a steady successful fetch of price `p` with a live
publication channel. -/
def okCycle {P : Type} (p : P) : CycleInput P :=
  { sel := SelEvent.unchanged, fetch := some p, sendOk := true }

/-- A concrete token used by concrete runs. -/
def tokA : Token := { symbol := "A", address := "a1" }

/-- A second concrete token used by concrete runs. -/
def tokB : Token := { symbol := "B", address := "b1" }

example :
    step (P := Nat) (initState [tokA]) (okCycle 7) =
      CycleResult.next { tokens := [tokA], retry_count := 0 }
        [Effect.fetchCall (FetchCall.single "a1"),
         Effect.publish [("a1", { price := some 7, retry_count := 0 })],
         Effect.sleep 5] := by decide

example :
    step (P := Nat) (initState [tokA]) (failCycle Nat) =
      CycleResult.next { tokens := [tokA], retry_count := 1 }
        [Effect.fetchCall (FetchCall.single "a1"),
         Effect.publish [("a1", { price := none, retry_count := 1 })],
         Effect.sleep 30] := by decide

example :
    sleepSecs (run_loop (P := Nat) (initState [tokA])
      (List.replicate 6 (failCycle Nat))).effects = [30, 60, 120, 240, 300, 300] := by decide

example :
    (run_loop (P := Nat) { tokens := [tokA], retry_count := 60 }
      [failCycle Nat]).isPanicked = true := by decide

example :
    step (P := Nat) (initState [tokA, tokB]) (okCycle 2) =
      CycleResult.next { tokens := [tokA, tokB], retry_count := 0 }
        [Effect.fetchCall (FetchCall.pair "a1" "b1"),
         Effect.publish [("a1_b1", { price := some 2, retry_count := 0 })],
         Effect.sleep 5] := by decide

/-! ### Structural lemmas about one cycle -/

lemma backoffSecs_of_le {r : Nat} (h : r ≤ 59) :
    backoffSecs (r + 1) = some (min (30 * 2 ^ r) 300) := by
  have h2 : 2 ^ r ≤ 2 ^ 59 := Nat.pow_le_pow_right (by norm_num) h
  have hlt : 30 * 2 ^ r < durationOverflowSecs := by
    calc 30 * 2 ^ r ≤ 30 * 2 ^ 59 := Nat.mul_le_mul_left _ h2
    _ < durationOverflowSecs := by norm_num [durationOverflowSecs]
  simp [backoffSecs, hlt]

lemma backoffSecs_61 : backoffSecs 61 = none := by decide

lemma step_sel_unchanged {P : Type} (s : LoopState) (key : String) (call : FetchCall)
    (hsel : selectionTarget s.tokens = some (key, call)) (f : Option P) (ok : Bool) :
    step s { sel := SelEvent.unchanged, fetch := f, sendOk := ok } =
      handleFetch key call s f ok := by
  simp [step, observeSelection, hsel]

lemma step_fail {P : Type} (s : LoopState) (key : String) (call : FetchCall)
    (hsel : selectionTarget s.tokens = some (key, call)) (h : s.retry_count ≤ 59) :
    step (P := P) s (failCycle P) =
      CycleResult.next { tokens := s.tokens, retry_count := s.retry_count + 1 }
        [Effect.fetchCall call,
         Effect.publish [(key, { price := none, retry_count := s.retry_count + 1 })],
         Effect.sleep (min (30 * 2 ^ s.retry_count) 300)] := by
  rw [show failCycle P = { sel := SelEvent.unchanged, fetch := none, sendOk := true } from rfl,
    step_sel_unchanged s key call hsel none true]
  simp [handleFetch, backoffSecs_of_le h]

lemma step_ok {P : Type} (s : LoopState) (key : String) (call : FetchCall)
    (hsel : selectionTarget s.tokens = some (key, call)) (p : P) :
    step s (okCycle p) =
      CycleResult.next { tokens := s.tokens, retry_count := 0 }
        [Effect.fetchCall call,
         Effect.publish [(key, { price := some p, retry_count := 0 })],
         Effect.sleep POLL_INTERVAL] := by
  rw [show okCycle p = { sel := SelEvent.unchanged, fetch := some p, sendOk := true } from rfl,
    step_sel_unchanged s key call hsel (some p) true]
  simp [handleFetch]

lemma fetchCalls_handleFetch {P : Type} (key : String) (call : FetchCall) (s : LoopState)
    (f : Option P) (ok : Bool) :
    fetchCalls (handleFetch key call s f ok).effects = [call] := by
  cases f with
  | some p =>
    cases ok <;> simp [handleFetch, fetchCalls, CycleResult.effects]
  | none =>
    cases ok with
    | false => simp [handleFetch, fetchCalls, CycleResult.effects]
    | true =>
      rcases hb : backoffSecs (s.retry_count + 1) with _ | b <;>
        simp [handleFetch, hb, fetchCalls, CycleResult.effects]

lemma handleFetch_next_tokens {P : Type} {key : String} {call : FetchCall} {s s1 : LoopState}
    {f : Option P} {ok : Bool} {effs : List (Effect P)}
    (h : handleFetch key call s f ok = CycleResult.next s1 effs) : s1.tokens = s.tokens := by
  cases f with
  | some p =>
    cases ok <;> simp [handleFetch] at h
    obtain ⟨h1, _⟩ := h
    rw [← h1]
  | none =>
    cases ok with
    | false => simp [handleFetch] at h
    | true =>
      rcases hb : backoffSecs (s.retry_count + 1) with _ | b <;> simp [handleFetch, hb] at h
      obtain ⟨h1, _⟩ := h
      rw [← h1]

lemma handleFetch_publishedMaps {P : Type} (key : String) (call : FetchCall) (s : LoopState)
    (f : Option P) (ok : Bool) :
    ∀ m ∈ publishedMaps (handleFetch key call s f ok).effects, ∃ info, m = [(key, info)] := by
  cases f with
  | some p =>
    cases ok <;> simp [handleFetch, publishedMaps, CycleResult.effects]
  | none =>
    cases ok with
    | false => simp [handleFetch, publishedMaps, CycleResult.effects]
    | true =>
      rcases hb : backoffSecs (s.retry_count + 1) with _ | b <;>
        simp [handleFetch, hb, publishedMaps, CycleResult.effects]

/-- The retry count a cycle publishes, as a function of the fetch
outcome: 0 on success (runner.rs:45, 79), the incremented counter on
failure (runner.rs:56, 90). -/
def publishedRetry {P : Type} (f : Option P) (rc : Nat) : Nat :=
  match f with
  | some _ => 0
  | none => rc + 1

lemma handleFetch_next_publishedMaps {P : Type} {key : String} {call : FetchCall}
    {s s1 : LoopState} {f : Option P} {ok : Bool} {effs : List (Effect P)}
    (h : handleFetch key call s f ok = CycleResult.next s1 effs) :
    publishedMaps effs =
      [[(key, { price := f, retry_count := publishedRetry f s.retry_count })]] := by
  cases f with
  | some p =>
    cases ok <;> simp [handleFetch] at h
    obtain ⟨_, h2⟩ := h
    subst h2
    simp [publishedMaps, publishedRetry]
  | none =>
    cases ok with
    | false => simp [handleFetch] at h
    | true =>
      rcases hb : backoffSecs (s.retry_count + 1) with _ | b <;> simp [handleFetch, hb] at h
      obtain ⟨_, h2⟩ := h
      subst h2
      simp [publishedMaps, publishedRetry]

/-! ### Claim theorems: selection handling and fatal errors -/

lemma step_sel_changed {P : Type} (s : LoopState) (ts : List Token)
    (f : Option P) (ok : Bool) :
    step s { sel := SelEvent.changed ts, fetch := f, sendOk := ok } =
      step (initState ts) { sel := SelEvent.unchanged, fetch := f, sendOk := ok } := rfl

/-- C2: a cycle that observes a Selection change behaves exactly like a
cycle started in the fresh state for the new Selection with
`retry_count = 0`: the stale failure counter never influences the new
Selection's fetch, publication, or backoff. -/
theorem selection_change_resets_retry {P : Type} (s : LoopState) (ts : List Token)
    (f : Option P) (ok : Bool) :
    step s { sel := SelEvent.changed ts, fetch := f, sendOk := ok } =
      step (initState ts) { sel := SelEvent.unchanged, fetch := f, sendOk := ok } := rfl

/-- C10: if the selection watch channel is closed (`has_changed()` returns
`Err`), the cycle does nothing else and `run_loop` returns that error. -/
theorem selection_channel_closed_fatal {P : Type} (s : LoopState) (f : Option P) (ok : Bool) :
    step s { sel := SelEvent.closed, fetch := f, sendOk := ok } =
      CycleResult.exited LoopError.selChannelClosed [] := rfl

/-- C8: a failed `price_sender.send` makes the loop return
`Err` (after the adapter call, publishing nothing), and the only errors
`run_loop` ever propagates are the closed selection channel and the
closed publication channel — a fetch failure never causes an exit. -/
theorem publish_failure_fatal_only {P : Type} :
    (∀ (s : LoopState) (key : String) (call : FetchCall),
      selectionTarget s.tokens = some (key, call) →
      ∀ f : Option P,
        step s { sel := SelEvent.unchanged, fetch := f, sendOk := false } =
          CycleResult.exited LoopError.pubChannelClosed [Effect.fetchCall call]) ∧
    (∀ (s : LoopState) (i : CycleInput P) (e : LoopError) (effs : List (Effect P)),
      step s i = CycleResult.exited e effs →
      (i.sel = SelEvent.closed ∧ e = LoopError.selChannelClosed) ∨
      (i.sendOk = false ∧ e = LoopError.pubChannelClosed)) := by
  constructor
  · intro s key call hsel f
    rw [step_sel_unchanged s key call hsel f false]
    cases f <;> simp [handleFetch]
  · intro s i e effs h
    obtain ⟨sel, f, ok⟩ := i
    cases sel with
    | closed =>
      simp [step, observeSelection] at h
      exact Or.inl ⟨rfl, h.1.symm⟩
    | unchanged =>
      rcases hsel : selectionTarget s.tokens with _ | ⟨key, call⟩
      · simp [step, observeSelection, hsel] at h
      · rw [step_sel_unchanged s key call hsel f ok] at h
        cases f with
        | some p =>
          cases ok <;> simp [handleFetch] at h
          exact Or.inr ⟨rfl, h.1.symm⟩
        | none =>
          cases ok with
          | false =>
            simp [handleFetch] at h
            exact Or.inr ⟨rfl, h.1.symm⟩
          | true =>
            rcases hb : backoffSecs (s.retry_count + 1) with _ | b <;>
              simp [handleFetch, hb] at h
    | changed ts =>
      rw [step_sel_changed s ts f ok] at h
      rcases hsel : selectionTarget (initState ts).tokens with _ | ⟨key, call⟩
      · simp [step, observeSelection, hsel] at h
      · rw [step_sel_unchanged (initState ts) key call hsel f ok] at h
        cases f with
        | some p =>
          cases ok <;> simp [handleFetch] at h
          exact Or.inr ⟨rfl, h.1.symm⟩
        | none =>
          cases ok with
          | false =>
            simp [handleFetch] at h
            exact Or.inr ⟨rfl, h.1.symm⟩
          | true =>
            rcases hb : backoffSecs ((initState ts).retry_count + 1) with _ | b <;>
              simp [handleFetch, hb] at h

/-- Witness for C8 at a concrete input. -/
theorem publish_failure_fatal_only_witness :
    step (P := Nat) (initState [tokA]) { sel := SelEvent.unchanged, fetch := some 7, sendOk := false } =
      CycleResult.exited LoopError.pubChannelClosed [Effect.fetchCall (FetchCall.single "a1")] :=
  (publish_failure_fatal_only (P := Nat)).1 (initState [tokA]) "a1" (FetchCall.single "a1")
    (by decide) (some 7)

/-- A third concrete token, for non-pair selections of length 3. -/
def tokC : Token := { symbol := "C", address := "c1" }

/-- C9: a Selection whose length is not 2 is treated as single-token
mode — only the first instrument is fetched (so a 3+-element Selection
silently prices just its first element) — and an empty Selection makes
the cycle panic (index out of bounds on `tokens[0]`) without publishing
or returning an error. -/
theorem non_pair_selection_single_mode {P : Type} :
    (∀ (s : LoopState) (t : Token) (rest : List Token) (i : CycleInput P),
      s.tokens = t :: rest → s.tokens.length ≠ 2 → i.sel = SelEvent.unchanged →
      fetchCalls (step s i).effects = [FetchCall.single t.address]) ∧
    (∀ (s : LoopState) (i : CycleInput P), s.tokens = [] → i.sel = SelEvent.unchanged →
      step s i = CycleResult.panicked []) := by
  constructor
  · intro s t rest i htoks hlen hsel
    obtain ⟨sel, f, ok⟩ := i
    simp only at hsel
    subst hsel
    have hsel2 : selectionTarget s.tokens = some (t.address, FetchCall.single t.address) := by
      rw [htoks]
      match rest with
      | [] => rfl
      | [x] =>
        exfalso
        apply hlen
        rw [htoks]
        rfl
      | x :: y :: ys => rfl
    rw [step_sel_unchanged s t.address (FetchCall.single t.address) hsel2 f ok]
    exact fetchCalls_handleFetch t.address (FetchCall.single t.address) s f ok
  · intro s i htoks hsel
    obtain ⟨sel, f, ok⟩ := i
    simp only at hsel
    subst hsel
    simp [step, observeSelection, htoks, selectionTarget]

/-- Witness for C9 at concrete inputs: a 3-token Selection fetches only
the first token, and the empty Selection panics. -/
theorem non_pair_selection_single_mode_witness :
    fetchCalls (step (P := Nat) { tokens := [tokA, tokB, tokC], retry_count := 0 }
        (okCycle 9)).effects = [FetchCall.single "a1"] ∧
    step (P := Nat) { tokens := [], retry_count := 0 } (okCycle 9) =
      CycleResult.panicked [] :=
  ⟨(non_pair_selection_single_mode (P := Nat)).1
      { tokens := [tokA, tokB, tokC], retry_count := 0 } tokA [tokB, tokC] (okCycle 9)
      (by decide) (by decide) (by decide),
   (non_pair_selection_single_mode (P := Nat)).2
      { tokens := [], retry_count := 0 } (okCycle 9) (by decide) (by decide)⟩

/-- C7: a successful fetch resets `retry_count` to 0, publishes the
price together with count 0, and a failure in the very next cycle backs
off 30 seconds — as a first failure — no matter what the counter was
before the success. -/
theorem success_resets_retry_and_backoff {P : Type} (s : LoopState) (key : String)
    (call : FetchCall) (p : P) (hsel : selectionTarget s.tokens = some (key, call)) :
    step s (okCycle p) =
      CycleResult.next { tokens := s.tokens, retry_count := 0 }
        [Effect.fetchCall call,
         Effect.publish [(key, { price := some p, retry_count := 0 })],
         Effect.sleep POLL_INTERVAL] ∧
    step { tokens := s.tokens, retry_count := 0 } (failCycle P) =
      CycleResult.next { tokens := s.tokens, retry_count := 1 }
        [Effect.fetchCall call,
         Effect.publish [(key, { price := none, retry_count := 1 })],
         Effect.sleep 30] := by
  constructor
  · exact step_ok s key call hsel p
  · have h30 : (min (30 * 2 ^ (0 : Nat)) 300) = 30 := by decide
    have := step_fail (P := P) { tokens := s.tokens, retry_count := 0 } key call hsel
      (by norm_num)
    rw [h30] at this
    exact this

/-- Witness for C7 at a concrete input: state with 17 accumulated
failures, then a success, then a failure backing off 30 seconds. -/
theorem success_resets_retry_and_backoff_witness :
    step (P := Nat) { tokens := [tokA], retry_count := 17 } (okCycle 4) =
      CycleResult.next { tokens := [tokA], retry_count := 0 }
        [Effect.fetchCall (FetchCall.single "a1"),
         Effect.publish [("a1", { price := some 4, retry_count := 0 })],
         Effect.sleep POLL_INTERVAL] ∧
    step (P := Nat) { tokens := [tokA], retry_count := 0 } (failCycle Nat) =
      CycleResult.next { tokens := [tokA], retry_count := 1 }
        [Effect.fetchCall (FetchCall.single "a1"),
         Effect.publish [("a1", { price := none, retry_count := 1 })],
         Effect.sleep 30] :=
  success_resets_retry_and_backoff (P := Nat) { tokens := [tokA], retry_count := 17 }
    "a1" (FetchCall.single "a1") 4 (by decide)

lemma step_next_publish_count {P : Type} {s s1 : LoopState} {i : CycleInput P}
    {effs : List (Effect P)} (h : step s i = CycleResult.next s1 effs) :
    (publishedMaps effs).length = 1 := by
  obtain ⟨sel, f, ok⟩ := i
  cases sel with
  | closed => simp [step, observeSelection] at h
  | unchanged =>
    rcases hsel : selectionTarget s.tokens with _ | ⟨key, call⟩
    · simp [step, observeSelection, hsel] at h
    · rw [step_sel_unchanged s key call hsel f ok] at h
      rw [handleFetch_next_publishedMaps h]
      rfl
  | changed ts =>
    rw [step_sel_changed s ts f ok] at h
    rcases hsel : selectionTarget (initState ts).tokens with _ | ⟨key, call⟩
    · simp [step, observeSelection, hsel] at h
    · rw [step_sel_unchanged (initState ts) key call hsel f ok] at h
      rw [handleFetch_next_publishedMaps h]
      rfl

/-- C5: every completed poll cycle publishes exactly one price map — a
trace of N completed cycles performs exactly N publications — and a
cycle publishes the singleton map keyed by the current Selection, with
the fetched price and count 0 on success, and with no price and the
incremented consecutive-failure count on failure. -/
theorem one_publication_per_cycle {P : Type} :
    (∀ (s : LoopState) (inputs : List (CycleInput P)) (s1 : LoopState)
        (effs : List (Effect P)),
      run_loop s inputs = RunResult.running s1 effs →
      (publishedMaps effs).length = inputs.length) ∧
    (∀ (s : LoopState) (key : String) (call : FetchCall) (f : Option P) (ok : Bool)
        (s1 : LoopState) (effs : List (Effect P)),
      selectionTarget s.tokens = some (key, call) →
      step s { sel := SelEvent.unchanged, fetch := f, sendOk := ok } =
        CycleResult.next s1 effs →
      publishedMaps effs =
        [[(key, { price := f, retry_count := publishedRetry f s.retry_count })]]) := by
  constructor
  · intro s inputs
    induction inputs generalizing s with
    | nil =>
      intro s1 effs h
      simp [run_loop] at h
      rw [h.2]
      rfl
    | cons i rest ih =>
      intro s1 effs h
      rcases hstep : step s i with ⟨s', e1⟩ | ⟨e, e1⟩ | e1 <;>
        rw [run_loop, hstep] at h <;> dsimp only at h
      · rcases hrun : run_loop s' rest with ⟨s2, e2⟩ | ⟨e, e2⟩ | e2 <;>
          rw [hrun] at h <;> dsimp only at h <;> simp at h
        obtain ⟨_, h2⟩ := h
        rw [← h2]
        have hone := step_next_publish_count hstep
        have htail := ih s' s2 e2 hrun
        simp only [publishedMaps] at hone htail ⊢
        rw [List.filterMap_append, List.length_append, List.length_cons, hone, htail]
        omega
      · simp at h
      · simp at h
  · intro s key call f ok s1 effs hsel h
    rw [step_sel_unchanged s key call hsel f ok] at h
    exact handleFetch_next_publishedMaps h

/-- Witness for C5 at a concrete input: a two-cycle trace (one success,
one failure) performs exactly two publications, and the failing cycle
publishes `price = none` with count 1. -/
theorem one_publication_per_cycle_witness :
    (publishedMaps
      (RunResult.effects (run_loop (P := Nat) (initState [tokA])
        [okCycle 3, failCycle Nat]))).length = 2 ∧
    publishedMaps (CycleResult.effects
        (step (P := Nat) (initState [tokA])
          { sel := SelEvent.unchanged, fetch := none, sendOk := true })) =
      [[("a1", { price := none, retry_count := 1 })]] :=
  ⟨(one_publication_per_cycle (P := Nat)).1 (initState [tokA]) [okCycle 3, failCycle Nat]
      { tokens := [tokA], retry_count := 1 }
      [Effect.fetchCall (FetchCall.single "a1"),
       Effect.publish [("a1", { price := some 3, retry_count := 0 })],
       Effect.sleep 5,
       Effect.fetchCall (FetchCall.single "a1"),
       Effect.publish [("a1", { price := none, retry_count := 1 })],
       Effect.sleep 30]
      (by decide),
   (one_publication_per_cycle (P := Nat)).2 (initState [tokA]) "a1"
      (FetchCall.single "a1") none true { tokens := [tokA], retry_count := 1 }
      [Effect.fetchCall (FetchCall.single "a1"),
       Effect.publish [("a1", { price := none, retry_count := 1 })],
       Effect.sleep 30]
      (by decide) (by decide)⟩

/-! ### Pair keys (C6) -/

/-- The string has no occurrence of the separator character `'_'` used
by the pair key `format!("{}_{}", ...)` (runner.rs:74). -/
def noSep (s : String) : Prop := '_' ∉ s.data

instance (s : String) : Decidable (noSep s) := by
  unfold noSep
  infer_instance

lemma append_sep_comm_inj {α : Type} (a : α) (l1 l2 : List α)
    (h1 : a ∉ l1) (h2 : a ∉ l2) (h : l1 ++ a :: l2 = l2 ++ a :: l1) : l1 = l2 := by
  have hlen : l1.length = l2.length := by
    by_contra hne
    rcases Nat.lt_or_gt_of_ne hne with hlt | hgt
    · have e1 : (l1 ++ a :: l2)[l1.length]? = some a := by
        rw [List.getElem?_append_right (Nat.le_refl _)]
        simp
      rw [h, List.getElem?_append_left hlt] at e1
      exact h2 (List.getElem?_mem e1)
    · have e1 : (l2 ++ a :: l1)[l2.length]? = some a := by
        rw [List.getElem?_append_right (Nat.le_refl _)]
        simp
      rw [← h, List.getElem?_append_left hgt] at e1
      exact h1 (List.getElem?_mem e1)
  exact (List.append_inj h hlen).1

lemma pair_key_swap_ne (b q : String) (hb : noSep b) (hq : noSep q) (hne : b ≠ q) :
    b ++ "_" ++ q ≠ q ++ "_" ++ b := by
  intro h
  apply hne
  apply String.ext
  have hd := congrArg String.data h
  simp only [String.data_append] at hd
  have hd2 : b.data ++ '_' :: q.data = q.data ++ '_' :: b.data := by
    simpa using hd
  exact append_sep_comm_inj '_' b.data q.data hb hq hd2

/-- C6 (amended): for a pair Selection `[base, quote]` the cycle invokes
the pair adapter with the two addresses in Selection order and publishes
under the key `base.address ++ "_" ++ quote.address` (order preserved,
not sorted); and — provided the two addresses differ and neither
contains the separator `'_'` — swapping base and quote produces a
different key. -/
theorem pair_key_order_and_swap {P : Type} (b q : Token) (r : Nat) (p : P) :
    step { tokens := [b, q], retry_count := r } (okCycle p) =
      CycleResult.next { tokens := [b, q], retry_count := 0 }
        [Effect.fetchCall (FetchCall.pair b.address q.address),
         Effect.publish [(b.address ++ "_" ++ q.address,
                          { price := some p, retry_count := 0 })],
         Effect.sleep POLL_INTERVAL] ∧
    (b.address ≠ q.address → noSep b.address → noSep q.address →
      b.address ++ "_" ++ q.address ≠ q.address ++ "_" ++ b.address) := by
  constructor
  · exact step_ok { tokens := [b, q], retry_count := r }
      (b.address ++ "_" ++ q.address) (FetchCall.pair b.address q.address) rfl p
  · intro hne hb hq
    exact pair_key_swap_ne b.address q.address hb hq hne

/-- Witness for C6 at a concrete input. -/
theorem pair_key_order_and_swap_witness :
    step (P := Nat) { tokens := [tokA, tokB], retry_count := 2 } (okCycle 11) =
      CycleResult.next { tokens := [tokA, tokB], retry_count := 0 }
        [Effect.fetchCall (FetchCall.pair "a1" "b1"),
         Effect.publish [("a1_b1", { price := some 11, retry_count := 0 })],
         Effect.sleep POLL_INTERVAL] ∧
    ("a1_b1" : String) ≠ "b1_a1" :=
  ⟨(pair_key_order_and_swap (P := Nat) tokA tokB 2 11).1,
   (pair_key_order_and_swap (P := Nat) tokA tokB 2 11).2
     (by decide) (by decide) (by decide)⟩

/-- C6 counterexample: with addresses `"a"` and `"a_a"` — distinct, but
one containing the separator — the pair key is `"a_a_a"` in both orders,
so swapping base and quote does not produce a different key. -/
theorem pair_key_swap_collision :
    ({ symbol := "B", address := "a" } : Token).address ≠
      ({ symbol := "Q", address := "a_a" } : Token).address ∧
    (selectionTarget [{ symbol := "B", address := "a" },
                      { symbol := "Q", address := "a_a" }]).map Prod.fst =
      (selectionTarget [{ symbol := "Q", address := "a_a" },
                        { symbol := "B", address := "a" }]).map Prod.fst ∧
    publishedMaps (CycleResult.effects
        (step (P := Nat) (initState [{ symbol := "B", address := "a" },
                                     { symbol := "Q", address := "a_a" }]) (okCycle 1))) =
      publishedMaps (CycleResult.effects
        (step (P := Nat) (initState [{ symbol := "Q", address := "a_a" },
                                     { symbol := "B", address := "a" }]) (okCycle 1))) := by
  refine ⟨by decide, by decide, by decide⟩

/-! ### Published maps across a run (C3) -/

lemma publishedMaps_append {P : Type} (l1 l2 : List (Effect P)) :
    publishedMaps (l1 ++ l2) = publishedMaps l1 ++ publishedMaps l2 := by
  simp [publishedMaps, List.filterMap_append]

/-- C3 (amended): every map the engine publishes is a freshly built
singleton containing exactly the current Selection's key, so while the
Selection is unchanged every published map — in particular every one
after the first — still contains an entry for that key.  (Publishing
replaces the previous map wholesale, so after a Selection change the old
key is no longer present; the claim holds only while the Selection is
unchanged.) -/
theorem published_map_key_stable_while_unchanged {P : Type} :
    ∀ (inputs : List (CycleInput P)) (s : LoopState) (key : String) (call : FetchCall),
      selectionTarget s.tokens = some (key, call) →
      (∀ i ∈ inputs, i.sel = SelEvent.unchanged) →
      ∀ m ∈ publishedMaps (run_loop s inputs).effects, ∃ info, m = [(key, info)] := by
  intro inputs
  induction inputs with
  | nil =>
    intro s key call hsel hunch m hm
    simp [run_loop, RunResult.effects, publishedMaps] at hm
  | cons i rest ih =>
    intro s key call hsel hunch m hm
    have hi : i.sel = SelEvent.unchanged := hunch i (List.mem_cons_self i rest)
    obtain ⟨sel, f, ok⟩ := i
    simp only at hi
    subst hi
    rw [run_loop, step_sel_unchanged s key call hsel f ok] at hm
    have hpm1 : ∀ m ∈ publishedMaps (handleFetch key call s f ok).effects,
        ∃ info, m = [(key, info)] := handleFetch_publishedMaps key call s f ok
    have hunch' : ∀ j ∈ rest, j.sel = SelEvent.unchanged :=
      fun j hj => hunch j (List.mem_cons_of_mem _ hj)
    rcases hf : handleFetch key call s f ok with ⟨s', e1⟩ | ⟨e, e1⟩ | e1 <;>
      rw [hf] at hm hpm1 <;> dsimp only at hm <;>
      dsimp only [CycleResult.effects] at hpm1
    · have hsel' : selectionTarget s'.tokens = some (key, call) := by
        rw [handleFetch_next_tokens hf]
        exact hsel
      rcases hrun : run_loop s' rest with ⟨s2, e2⟩ | ⟨e, e2⟩ | e2 <;>
        rw [hrun] at hm <;> dsimp only [RunResult.effects] at hm <;>
        rw [publishedMaps_append, List.mem_append] at hm <;>
        rcases hm with h1 | h2
      · exact hpm1 m h1
      · exact ih s' key call hsel' hunch' m (by rw [hrun]; exact h2)
      · exact hpm1 m h1
      · exact ih s' key call hsel' hunch' m (by rw [hrun]; exact h2)
      · exact hpm1 m h1
      · exact ih s' key call hsel' hunch' m (by rw [hrun]; exact h2)
    · exact hpm1 m hm
    · exact hpm1 m hm

/-- Witness for C3 at a concrete input: in a three-cycle mixed trace
with an unchanged Selection, the second published map (the one after
the failing middle cycle) still carries the key `"a1"`. -/
theorem published_map_key_stable_witness :
    ∃ info, [("a1", ({ price := none, retry_count := 1 } : PriceInfo Nat))] =
      [("a1", info)] :=
  published_map_key_stable_while_unchanged
    [okCycle 3, failCycle Nat, okCycle 4] (initState [tokA]) "a1"
    (FetchCall.single "a1") (by decide) (by decide)
    [("a1", { price := none, retry_count := 1 })] (by decide)

/-- C3 counterexample: entries of published maps do not survive a
Selection change.  After publishing under key `"a1"`, a cycle that
adopts a new Selection publishes a map with no entry for `"a1"`: the
second published map is `[("b1", …)]` and looking up `"a1"` in it finds
nothing. -/
theorem published_map_drops_old_key_on_change :
    publishedMaps (run_loop (P := Nat) (initState [tokA])
        [okCycle 1,
         { sel := SelEvent.changed [tokB], fetch := some 2, sendOk := true }]).effects =
      [[("a1", { price := some 1, retry_count := 0 })],
       [("b1", { price := some 2, retry_count := 0 })]] ∧
    List.lookup "a1" [("b1", ({ price := some 2, retry_count := 0 } : PriceInfo Nat))] =
      none := by
  refine ⟨by decide, by decide⟩

/-! ### The backoff schedule across consecutive failures (C1, C4) -/

lemma sleepSecs_append {P : Type} (l1 l2 : List (Effect P)) :
    sleepSecs (l1 ++ l2) = sleepSecs l1 ++ sleepSecs l2 := by
  simp [sleepSecs, List.filterMap_append]

/-- The effects of one failing cycle with key `key`, failure number
`n` (1-based) and backoff `w` seconds. -/
def failEffects (P : Type) (key : String) (call : FetchCall) (n w : Nat) :
    List (Effect P) :=
  [Effect.fetchCall call,
   Effect.publish [(key, { price := none, retry_count := n })],
   Effect.sleep w]

lemma run_loop_failures {P : Type} (ts : List Token) (key : String) (call : FetchCall)
    (hsel : selectionTarget ts = some (key, call)) :
    ∀ (k r : Nat), r + k ≤ 60 →
    run_loop (P := P) { tokens := ts, retry_count := r } (List.replicate k (failCycle P)) =
      RunResult.running { tokens := ts, retry_count := r + k }
        ((List.range k).flatMap fun j =>
          failEffects P key call (r + j + 1) (min (30 * 2 ^ (r + j)) 300)) := by
  intro k
  induction k with
  | zero =>
    intro r h
    simp [run_loop]
  | succ k ih =>
    intro r h
    rw [List.replicate_succ, run_loop]
    have hstep := step_fail (P := P) { tokens := ts, retry_count := r } key call hsel
      (by show r ≤ 59; omega)
    dsimp only at hstep
    rw [hstep]
    dsimp only
    rw [ih (r + 1) (by omega)]
    dsimp only
    have harith : r + 1 + k = r + (k + 1) := by omega
    rw [harith]
    congr 1
    rw [List.range_succ_eq_map, List.flatMap_cons, List.flatMap_map]
    have hfun : (fun j => failEffects P key call (r + Nat.succ j + 1)
          (min (30 * 2 ^ (r + Nat.succ j)) 300)) =
        fun j => failEffects P key call (r + 1 + j + 1) (min (30 * 2 ^ (r + 1 + j)) 300) := by
      funext j
      have e1 : r + Nat.succ j + 1 = r + 1 + j + 1 := by omega
      have e2 : r + Nat.succ j = r + 1 + j := by omega
      rw [e1, e2]
    rw [hfun]
    congr 1

lemma sleepSecs_failEffects_flatMap {P : Type} (key : String) (call : FetchCall)
    (g h : Nat → Nat) (l : List Nat) :
    sleepSecs (l.flatMap fun j => failEffects P key call (h j) (g j)) = l.map g := by
  induction l with
  | nil => rfl
  | cons a l ih =>
    rw [List.flatMap_cons, sleepSecs_append, ih]
    simp [sleepSecs, failEffects]

/-- C1 (amended): a run of `k ≤ 60` consecutive fetch failures with no
intervening success and no Selection change completes `k` cycles, the
sequence of waits is exactly `min(30·2^(i-1), 300)` seconds before
attempt `i+1` (for `i = 1..k`), the backoff wait replaces the
poll-interval wait in each of these cycles, and the wait sequence is
non-decreasing until it reaches the 300-second ceiling and constant
thereafter.  (For `k = 61` the claim fails: the 61st backoff computation
overflows `Duration` and panics instead of waiting — see the
counterexample and C4.) -/
theorem backoff_schedule_capped_monotone {P : Type} (ts : List Token) (key : String)
    (call : FetchCall) (hsel : selectionTarget ts = some (key, call)) (k : Nat)
    (hk : k ≤ 60) :
    ∃ effs, run_loop (P := P) (initState ts) (List.replicate k (failCycle P)) =
        RunResult.running { tokens := ts, retry_count := k } effs ∧
      sleepSecs effs = (List.range k).map (fun i => min (30 * 2 ^ i) 300) ∧
      POLL_INTERVAL ∉ sleepSecs effs ∧
      (∀ (i j a b : Nat), i ≤ j →
        (sleepSecs effs)[i]? = some a → (sleepSecs effs)[j]? = some b →
        a ≤ b ∧ (a = 300 → b = 300)) := by
  have hrun := run_loop_failures (P := P) ts key call hsel k 0 (by omega)
  simp only [Nat.zero_add] at hrun
  have hss : sleepSecs ((List.range k).flatMap fun j =>
      failEffects P key call (j + 1) (min (30 * 2 ^ j) 300)) =
      (List.range k).map (fun i => min (30 * 2 ^ i) 300) :=
    sleepSecs_failEffects_flatMap key call _ _ (List.range k)
  refine ⟨_, hrun, hss, ?_, ?_⟩
  · rw [hss]
    intro hmem
    simp only [List.mem_map, List.mem_range] at hmem
    obtain ⟨i, _, heq⟩ := hmem
    have h30 : 30 ≤ min (30 * 2 ^ i) 300 :=
      le_min (Nat.le_mul_of_pos_right _ (pow_pos (by norm_num) i)) (by norm_num)
    have h5 : POLL_INTERVAL = 5 := rfl
    omega
  · rw [hss]
    intro i j a b hij ha hb
    have hlen : ((List.range k).map (fun i => min (30 * 2 ^ i) 300)).length = k := by
      simp
    have hi : i < k := by
      by_contra hik
      rw [List.getElem?_eq_none (by omega)] at ha
      simp at ha
    have hj : j < k := by
      by_contra hjk
      rw [List.getElem?_eq_none (by omega)] at hb
      simp at hb
    rw [List.getElem?_map, List.getElem?_range hi] at ha
    rw [List.getElem?_map, List.getElem?_range hj] at hb
    simp only [Option.map_some'] at ha hb
    obtain rfl : min (30 * 2 ^ i) 300 = a := by injection ha
    obtain rfl : min (30 * 2 ^ j) 300 = b := by injection hb
    have hpow : 30 * 2 ^ i ≤ 30 * 2 ^ j :=
      Nat.mul_le_mul_left 30 (Nat.pow_le_pow_right (by norm_num) hij)
    constructor
    · exact min_le_min hpow (le_refl 300)
    · intro h300
      have h1 : 300 ≤ 30 * 2 ^ i := min_eq_right_iff.mp h300
      exact min_eq_right_iff.mpr (le_trans h1 hpow)

/-- Witness for C1 (amended) at a concrete input: six consecutive
failures from a fresh single-token Selection. -/
theorem backoff_schedule_capped_monotone_witness :
    ∃ effs, run_loop (P := Nat) (initState [tokA]) (List.replicate 6 (failCycle Nat)) =
        RunResult.running { tokens := [tokA], retry_count := 6 } effs ∧
      sleepSecs effs = (List.range 6).map (fun i => min (30 * 2 ^ i) 300) ∧
      POLL_INTERVAL ∉ sleepSecs effs ∧
      (∀ (i j a b : Nat), i ≤ j →
        (sleepSecs effs)[i]? = some a → (sleepSecs effs)[j]? = some b →
        a ≤ b ∧ (a = 300 → b = 300)) :=
  backoff_schedule_capped_monotone [tokA] "a1" (FetchCall.single "a1")
    (by decide) 6 (by decide)

/-- C1 counterexample: in a run of 61 consecutive failures the claimed
wait schedule breaks down — the process panics, all 61 failures are
published, but only 60 backoff waits ever happen: there is no wait
equal to `min(30·2^60, 300)` (or anything else) after the 61st failure. -/
theorem backoff_wait_missing_at_61st_failure :
    (run_loop (P := Nat) (initState [tokA])
        (List.replicate 61 (failCycle Nat))).isPanicked = true ∧
    (publishedMaps (run_loop (P := Nat) (initState [tokA])
        (List.replicate 61 (failCycle Nat))).effects).length = 61 ∧
    (sleepSecs (run_loop (P := Nat) (initState [tokA])
        (List.replicate 61 (failCycle Nat))).effects).length = 60 := by
  refine ⟨by decide, by decide, by decide⟩

/-- C4: the claim that the loop stays well-defined for arbitrarily many
consecutive failures is broken by the code: the 61st consecutive failure
computes `Duration::from_secs(30).mul_f32(2f32.powi(60))`, which
overflows `Duration` before the 300-second cap is applied and panics —
after publishing the 61st failure result and before any wait.  Up to 60
consecutive failures the loop indeed never exits and never panics. -/
theorem backoff_overflow_panics_at_61 :
    backoffSecs 61 = none ∧
    step (P := Nat) { tokens := [tokA], retry_count := 60 } (failCycle Nat) =
      CycleResult.panicked
        [Effect.fetchCall (FetchCall.single "a1"),
         Effect.publish [("a1", { price := none, retry_count := 61 })]] ∧
    (run_loop (P := Nat) (initState [tokA])
        (List.replicate 60 (failCycle Nat))).isPanicked = false := by
  refine ⟨by decide, by decide, by decide⟩
